import Mathlib

/-!
# Verification of the EPA player-comparison tool's aggregation and chart logic

Shallow embedding of `src/app.py`. Play-by-play rows and roster rows become
Lean structures (pandas `NaN`/missing values become `Option`, float columns
become `ℚ`); the pandas boolean-mask filters become `List.filter`; the
pandas `Series.mean` (which is `NaN` on an empty series) becomes an
`Option ℚ`-valued mean. Each definition mirrors one function or block of
`src/app.py`, noted in its doc comment.
-/

/-- One play-by-play row (`src/app.py` uses the nflfastR columns listed
here).  A pandas cell that can be missing (`NaN` for a name/id column) is an
`Option`; numeric outcome columns are modelled as rationals. -/
structure Play where
  passer_player_name : Option String
  rusher_player_name : Option String
  receiver_player_name : Option String
  passer_player_id : Option String
  rusher_player_id : Option String
  receiver_player_id : Option String
  posteam : String
  week : Nat
  epa : ℚ
  success : ℚ
  cpoe : ℚ
  air_yards : ℚ
  yards_after_catch : ℚ
  complete_pass : ℚ
  pass_touchdown : ℚ
  rush_touchdown : ℚ
  interception : ℚ
  sack : ℚ
  first_down : ℚ
  yards_gained : ℚ
  deriving DecidableEq

/-- One seasonal-roster row (`rosters` in `src/app.py`). -/
structure RosterRow where
  player_id : Option String
  first_name : Option String
  last_name : Option String
  football_name : Option String
  position : String
  headshot_url : Option String
  deriving DecidableEq

/-- `Series.mean()` of pandas: `NaN` (here `none`) on an empty series, else
the sum divided by the count. -/
def meanQ (l : List ℚ) : Option ℚ :=
  if l = [] then none else some (l.sum / (l.length : ℚ))

/-- The passer mask of `calculate_qb_stats` (`src/app.py:225`):
`pbp[(pbp['passer_player_name'] == player_name) & (pbp['posteam'] == team)]`. -/
def qbPlays (pbp : List Play) (player_name team : String) : List Play :=
  pbp.filter fun p => decide (p.passer_player_name = some player_name ∧ p.posteam = team)

/-- The rusher mask of `calculate_rb_stats` (`src/app.py:249`). -/
def rushPlays (pbp : List Play) (player_name team : String) : List Play :=
  pbp.filter fun p => decide (p.rusher_player_name = some player_name ∧ p.posteam = team)

/-- The receiver mask shared by `calculate_rb_stats` (`src/app.py:251`) and
`calculate_wr_te_stats` (`src/app.py:275`). -/
def recPlays (pbp : List Play) (player_name team : String) : List Play :=
  pbp.filter fun p => decide (p.receiver_player_name = some player_name ∧ p.posteam = team)

/-- The completed passes among a passer's matched plays
(`qb_plays[qb_plays['complete_pass'] == 1]`, `src/app.py:238`). -/
def qbCompletions (pbp : List Play) (player_name team : String) : List Play :=
  (qbPlays pbp player_name team).filter fun p => decide (p.complete_pass = 1)

/-- The record `calculate_qb_stats` builds (its dict keys are noted per
field).  Mean-valued columns are `Option ℚ` because a pandas mean of an
empty selection is `NaN`. -/
structure QBStats where
  /-- 'Plays' -/
  plays : Nat
  /-- 'EPA/Play' -/
  epaPlay : Option ℚ
  /-- 'Success Rate' -/
  successRate : ℚ
  /-- 'CPOE' -/
  cpoe : Option ℚ
  /-- 'Air Yards/Att' -/
  airYardsAtt : Option ℚ
  /-- 'YAC/Comp' -/
  yacComp : Option ℚ
  /-- 'Pass TDs' -/
  passTDs : ℚ
  /-- 'INTs' -/
  ints : ℚ
  /-- 'Sacks' -/
  sacks : ℚ
  /-- 'Comp %' -/
  compPct : ℚ
  deriving DecidableEq

/-- `calculate_qb_stats` (`src/app.py:223-245`): `None` when the player has
zero matched pass plays, otherwise the stat record. -/
def calculate_qb_stats (pbp : List Play) (player_name team : String) : Option QBStats :=
  if (qbPlays pbp player_name team).length = 0 then none
  else some {
    plays := (qbPlays pbp player_name team).length
    epaPlay := meanQ ((qbPlays pbp player_name team).map (·.epa))
    successRate :=
      ((qbPlays pbp player_name team).map (·.success)).sum /
        ((qbPlays pbp player_name team).length : ℚ) * 100
    cpoe := meanQ ((qbPlays pbp player_name team).map (·.cpoe))
    airYardsAtt := meanQ ((qbPlays pbp player_name team).map (·.air_yards))
    yacComp := meanQ ((qbCompletions pbp player_name team).map (·.yards_after_catch))
    passTDs := ((qbPlays pbp player_name team).map (·.pass_touchdown)).sum
    ints := ((qbPlays pbp player_name team).map (·.interception)).sum
    sacks := ((qbPlays pbp player_name team).map (·.sack)).sum
    compPct :=
      ((qbPlays pbp player_name team).map (·.complete_pass)).sum /
        ((qbPlays pbp player_name team).length : ℚ) * 100 }

/-- The record `calculate_rb_stats` builds.  The code explicitly defaults
each mean-based sub-role metric to `0` when that sub-role has zero plays, so
every field is a total rational. -/
structure RBStats where
  /-- 'Rush Attempts' -/
  rushAttempts : Nat
  /-- 'Rush EPA/Play' -/
  rushEpaPlay : ℚ
  /-- 'Rush Success Rate' -/
  rushSuccessRate : ℚ
  /-- 'Rush Yards' -/
  rushYards : ℚ
  /-- 'Rush TDs' -/
  rushTDs : ℚ
  /-- 'Targets' -/
  targets : Nat
  /-- 'Rec EPA/Target' -/
  recEpaTarget : ℚ
  /-- 'Receptions' -/
  receptions : ℚ
  /-- 'Rec Yards' -/
  recYards : ℚ
  /-- 'Rec TDs' -/
  recTDs : ℚ
  deriving DecidableEq

/-- `calculate_rb_stats` (`src/app.py:247-271`): `None` when both the rush
mask and the target mask are empty. -/
def calculate_rb_stats (pbp : List Play) (player_name team : String) : Option RBStats :=
  if (rushPlays pbp player_name team).length = 0 ∧ (recPlays pbp player_name team).length = 0
  then none
  else some {
    rushAttempts := (rushPlays pbp player_name team).length
    rushEpaPlay :=
      if (rushPlays pbp player_name team).length > 0 then
        ((rushPlays pbp player_name team).map (·.epa)).sum /
          ((rushPlays pbp player_name team).length : ℚ)
      else 0
    rushSuccessRate :=
      if (rushPlays pbp player_name team).length > 0 then
        ((rushPlays pbp player_name team).map (·.success)).sum /
          ((rushPlays pbp player_name team).length : ℚ) * 100
      else 0
    rushYards := ((rushPlays pbp player_name team).map (·.yards_gained)).sum
    rushTDs := ((rushPlays pbp player_name team).map (·.rush_touchdown)).sum
    targets := (recPlays pbp player_name team).length
    recEpaTarget :=
      if (recPlays pbp player_name team).length > 0 then
        ((recPlays pbp player_name team).map (·.epa)).sum /
          ((recPlays pbp player_name team).length : ℚ)
      else 0
    receptions := ((recPlays pbp player_name team).map (·.complete_pass)).sum
    recYards := ((recPlays pbp player_name team).map (·.yards_gained)).sum
    recTDs := ((recPlays pbp player_name team).map (·.pass_touchdown)).sum }

/-- The record `calculate_wr_te_stats` builds. -/
structure WRStats where
  /-- 'Targets' -/
  targets : Nat
  /-- 'EPA/Target' -/
  epaTarget : Option ℚ
  /-- 'Success Rate' -/
  successRate : ℚ
  /-- 'Receptions' -/
  receptions : ℚ
  /-- 'Catch %' -/
  catchPct : ℚ
  /-- 'Yards' -/
  yards : ℚ
  /-- 'Yards/Target' -/
  yardsTarget : Option ℚ
  /-- 'TDs' -/
  tds : ℚ
  /-- 'First Downs' -/
  firstDowns : ℚ
  /-- 'Air Yards' -/
  airYards : ℚ
  /-- 'YAC' -/
  yac : ℚ
  deriving DecidableEq

/-- `calculate_wr_te_stats` (`src/app.py:273-296`): `None` when the player
has zero targets. -/
def calculate_wr_te_stats (pbp : List Play) (player_name team : String) : Option WRStats :=
  if (recPlays pbp player_name team).length = 0 then none
  else some {
    targets := (recPlays pbp player_name team).length
    epaTarget := meanQ ((recPlays pbp player_name team).map (·.epa))
    successRate :=
      ((recPlays pbp player_name team).map (·.success)).sum /
        ((recPlays pbp player_name team).length : ℚ) * 100
    receptions := ((recPlays pbp player_name team).map (·.complete_pass)).sum
    catchPct :=
      ((recPlays pbp player_name team).map (·.complete_pass)).sum /
        ((recPlays pbp player_name team).length : ℚ) * 100
    yards := ((recPlays pbp player_name team).map (·.yards_gained)).sum
    yardsTarget := meanQ ((recPlays pbp player_name team).map (·.yards_gained))
    tds := ((recPlays pbp player_name team).map (·.pass_touchdown)).sum
    firstDowns := ((recPlays pbp player_name team).map (·.first_down)).sum
    airYards := ((recPlays pbp player_name team).map (·.air_yards)).sum
    yac := ((recPlays pbp player_name team).map (·.yards_after_catch)).sum }

/-- The per-position stats loop of `main` (`src/app.py:543-596`): each
selected `(abbreviated name, team)` pair contributes a row exactly when its
aggregator returned a record (`if stats: ... all_stats.append(stats)`). -/
def buildQbTable (pbp : List Play) (selected : List (String × String)) : List QBStats :=
  selected.filterMap fun pt => calculate_qb_stats pbp pt.1 pt.2

/-- The Comparison Table rows for position `RB` (same loop as `buildQbTable`). -/
def buildRbTable (pbp : List Play) (selected : List (String × String)) : List RBStats :=
  selected.filterMap fun pt => calculate_rb_stats pbp pt.1 pt.2

/-- The Comparison Table rows for positions `WR`/`TE` (same loop as
`buildQbTable`). -/
def buildWrTable (pbp : List Play) (selected : List (String × String)) : List WRStats :=
  selected.filterMap fun pt => calculate_wr_te_stats pbp pt.1 pt.2

/-- The fallback display string of `get_player_display_name`
(`src/app.py:217`): `f"{abbreviated_name} ({team})"`. -/
def fallbackName (abbreviated_name team : String) : String :=
  abbreviated_name ++ " (" ++ team ++ ")"

/-- The resolved display string of `get_player_display_name`
(`src/app.py:213`): `f"{last_name}, {first_name} ({team})"`. -/
def formatFull (last first team : String) : String :=
  last ++ ", " ++ first ++ " (" ++ team ++ ")"

/-- The preferred first name of `get_player_display_name`
(`src/app.py:204-210`): the roster `football_name` when present and
non-blank after stripping whitespace, else the roster `first_name`. -/
def preferredFirst (row : RosterRow) : Option String :=
  match row.football_name with
  | some f => if f.trim = "" then row.first_name else some f
  | none => row.first_name

/-- The player-identifier lookup of `get_player_display_name`
(`src/app.py:179-197`): the first play matching the abbreviated name and
team in the role of the position, and that play's role identifier (for RB,
the rusher identifier falling back to the same play's receiver identifier).
When no play matches, the Python local is never assigned and the bare
`except` turns the `NameError` into the fallback, which `none` models. -/
def findId (position : String) (pbp : List Play) (abbreviated_name team : String) :
    Option String :=
  if position = "QB" then
    (pbp.find? fun p =>
        decide (p.passer_player_name = some abbreviated_name ∧ p.posteam = team)).bind
      (·.passer_player_id)
  else if position = "RB" then
    (pbp.find? fun p =>
        decide ((p.rusher_player_name = some abbreviated_name ∨
                 p.receiver_player_name = some abbreviated_name) ∧ p.posteam = team)).bind
      (fun p => p.rusher_player_id.or p.receiver_player_id)
  else
    (pbp.find? fun p =>
        decide (p.receiver_player_name = some abbreviated_name ∧ p.posteam = team)).bind
      (·.receiver_player_id)

/-- `get_player_display_name` (`src/app.py:176-217`): resolve the player
identifier from the plays, look the identifier up in the roster (first row
wins, as `rosters[rosters['player_id'] == player_id]` then `.values[0]`
does), and format `"LastName, PreferredFirstName (TEAM)"`; every missing
step degrades to the fallback string. -/
def get_player_display_name (abbreviated_name team : String) (pbp : List Play)
    (rosters : List RosterRow) (position : String) : String :=
  match findId position pbp abbreviated_name team with
  | none => fallbackName abbreviated_name team
  | some pid =>
    match rosters.find? fun r => decide (r.player_id = some pid) with
    | none => fallbackName abbreviated_name team
    | some row =>
      match row.last_name, preferredFirst row with
      | some ln, some fn => formatFull ln fn team
      | _, _ => fallbackName abbreviated_name team

/-- The week filter of `main` (`src/app.py:448-454`): `"All"` (here `none`)
passes every play through; otherwise a week range keeps
`pbp['week'].between(selected_weeks, week_end)` (inclusive), and a single
week keeps `pbp['week'] == selected_weeks`. -/
def filterWeeks (pbp : List Play) (selectedWeek : Option Nat) (useRange : Bool)
    (weekEnd : Option Nat) : List Play :=
  match selectedWeek with
  | none => pbp
  | some w =>
    if useRange then
      match weekEnd with
      | some we => pbp.filter fun p => decide (w ≤ p.week ∧ p.week ≤ we)
      | none => pbp.filter fun p => decide (p.week = w)
    else pbp.filter fun p => decide (p.week = w)

/-- One row of the table as the chart consumes it (`src/app.py:302-326`
reads only the `'Player'` column and the selected metric column). -/
structure ChartRow where
  player : String
  value : ℚ
  deriving DecidableEq

/-- The ascending comparison on the selected metric column. -/
def byMetric (a b : ChartRow) : Prop := a.value ≤ b.value

instance : DecidableRel byMetric := fun a b => inferInstanceAs (Decidable (a.value ≤ b.value))

instance : IsTotal ChartRow byMetric := ⟨fun a b => le_total a.value b.value⟩

instance : IsTrans ChartRow byMetric := ⟨fun _ _ _ => le_trans⟩

/-- The sort of `create_comparison_chart` (`src/app.py:306`):
`stats_df.sort_values(by=metric, ascending=True)`.  numpy's argsort (which
pandas calls for a single sort column) runs a plain, stable insertion sort
on any array shorter than 16 entries, and the table here holds 2 to 5
players (`max_selections=5` at `src/app.py:525`), so a stable insertion
sort is the executed algorithm. -/
def sortByMetric (rows : List ChartRow) : List ChartRow :=
  rows.insertionSort byMetric

/-- `REFERENCE_LINES` (`src/app.py:78-101`), the static
(position, metric) → league-average table, as an association list. -/
def REFERENCE_LINES : List (String × List (String × ℚ)) :=
  [("QB", [("EPA/Play", 1/10), ("Success Rate", 43), ("Comp %", 64)]),
   ("RB", [("Rush EPA/Play", 1/50), ("Rush Success Rate", 42), ("Rec EPA/Target", 3/20)]),
   ("WR", [("EPA/Target", 9/50), ("Success Rate", 48), ("Catch %", 63), ("Yards/Target", 8)]),
   ("TE", [("EPA/Target", 3/20), ("Success Rate", 48), ("Catch %", 63), ("Yards/Target", 15/2)])]

/-- `position in REFERENCE_LINES and metric in REFERENCE_LINES[position]`
with the looked-up value (`src/app.py:329-330`). -/
def refLookup (position metric : String) : Option ℚ :=
  (REFERENCE_LINES.lookup position).bind fun table => table.lookup metric

/-- The reference-line decision of `create_comparison_chart`
(`src/app.py:328-340`): a vertical marker at the table value exactly when
the metric is not `'CPOE'` and the (position, metric) entry exists. -/
def chartReferenceLine (position metric : String) : Option ℚ :=
  if metric = "CPOE" then none else refLookup position metric

/-- Whether `needle` occurs as a contiguous run inside `hay` (Python's
`needle in col` on strings). -/
def infixCheck (needle : List Char) : List Char → Bool
  | [] => needle.isEmpty
  | c :: cs => needle.isPrefixOf (c :: cs) || infixCheck needle cs

/-- Python's `sub in col` for column names (`src/app.py:633-635`). -/
def containsSub (needle hay : String) : Bool :=
  infixCheck needle.data hay.data

/-- Round half to even to an integer, as numpy's `round` (hence pandas
`.round(0)`) does on the exact value. -/
def roundHalfEven (q : ℚ) : ℤ :=
  if q - (⌊q⌋ : ℚ) < 1/2 then ⌊q⌋
  else if (1 : ℚ)/2 < q - (⌊q⌋ : ℚ) then ⌊q⌋ + 1
  else if ⌊q⌋ % 2 = 0 then ⌊q⌋ else ⌊q⌋ + 1

/-- pandas `.round(2)`: round half to even at two decimal places. -/
def round2 (q : ℚ) : ℚ :=
  (roundHalfEven (q * 100) : ℚ) / 100

/-- The column classification of the rounding loop (`src/app.py:631-638`):
`'%' in col or 'Rate' in col`, else
`any(x in col for x in ['EPA', 'CPOE', 'Yards', 'YAC'])`. -/
def twoDecCol (col : String) : Bool :=
  (containsSub "%" col || containsSub "Rate" col) ||
    (containsSub "EPA" col || containsSub "CPOE" col ||
     containsSub "Yards" col || containsSub "YAC" col)

/-- The display rounding of one numeric cell (`src/app.py:631-638`):
two decimal places for percentage/rate and efficiency columns, nearest
integer (`round(0).astype(int)`) for every other numeric column. -/
def displayRound (col : String) (v : ℚ) : ℚ :=
  if containsSub "%" col || containsSub "Rate" col then round2 v
  else if containsSub "EPA" col || containsSub "CPOE" col ||
          containsSub "Yards" col || containsSub "YAC" col then round2 v
  else (roundHalfEven v : ℚ)

/-- The numeric columns the QB table holds (`calculate_qb_stats` keys other
than `'Player'`). -/
def qbCols : List String :=
  ["Plays", "EPA/Play", "Success Rate", "CPOE", "Air Yards/Att", "YAC/Comp",
   "Pass TDs", "INTs", "Sacks", "Comp %"]

/-- The numeric columns the RB table holds. -/
def rbCols : List String :=
  ["Rush Attempts", "Rush EPA/Play", "Rush Success Rate", "Rush Yards", "Rush TDs",
   "Targets", "Rec EPA/Target", "Receptions", "Rec Yards", "Rec TDs"]

/-- The numeric columns the WR/TE table holds. -/
def wrCols : List String :=
  ["Targets", "EPA/Target", "Success Rate", "Receptions", "Catch %", "Yards",
   "Yards/Target", "TDs", "First Downs", "Air Yards", "YAC"]

/-- The columns the spec's rounding policy sends to two decimal places:
percentage/rate-like columns and the EPA/CPOE/yardage/yards-after-catch
efficiency columns. -/
def specTwoDecCols : List String :=
  ["EPA/Play", "Success Rate", "CPOE", "Air Yards/Att", "YAC/Comp", "Comp %",
   "Rush EPA/Play", "Rush Success Rate", "Rush Yards", "Rec EPA/Target", "Rec Yards",
   "EPA/Target", "Catch %", "Yards", "Yards/Target", "Air Yards", "YAC"]

/-- Splitting a character list on `'|'`, as Python's `key.split('|')`. -/
def splitPipe : List Char → List (List Char)
  | [] => [[]]
  | c :: cs =>
    if c = '|' then [] :: splitPipe cs
    else
      match splitPipe cs with
      | [] => [[c]]
      | p :: ps => (c :: p) :: ps

/-- The selection-key encoding of `main` (`src/app.py:512`):
`key = f"{player_abbrev}|{team}"`. -/
def encodeKey (abbreviated_name team : String) : String :=
  abbreviated_name ++ "|" ++ team

/-- The selection-key decoding of `main` (`src/app.py:537`):
`player_abbrev, team = key.split('|')`, which raises (here `none`) unless
the split has exactly two parts. -/
def decodeKey (key : String) : Option (String × String) :=
  match splitPipe key.data with
  | [a, b] => some (String.mk a, String.mk b)
  | _ => none

/-! ## Helper lemmas -/

lemma calculate_qb_stats_eq_none_iff (pbp : List Play) (n t : String) :
    calculate_qb_stats pbp n t = none ↔ qbPlays pbp n t = [] := by
  unfold calculate_qb_stats
  split_ifs with h
  · simp [List.length_eq_zero.mp h]
  · simp only [List.length_eq_zero] at h
    simp [h]

lemma calculate_rb_stats_eq_none_iff (pbp : List Play) (n t : String) :
    calculate_rb_stats pbp n t = none ↔
      (rushPlays pbp n t = [] ∧ recPlays pbp n t = []) := by
  unfold calculate_rb_stats
  split_ifs with h
  · simp only [List.length_eq_zero] at h
    simp [h.1, h.2]
  · simp only [List.length_eq_zero] at h
    simp [h]

lemma calculate_wr_te_stats_eq_none_iff (pbp : List Play) (n t : String) :
    calculate_wr_te_stats pbp n t = none ↔ recPlays pbp n t = [] := by
  unfold calculate_wr_te_stats
  split_ifs with h
  · simp [List.length_eq_zero.mp h]
  · simp only [List.length_eq_zero] at h
    simp [h]

lemma filterMap_middle_none {α β : Type} (f : α → Option β) (l₁ l₂ : List α) (x : α)
    (h : f x = none) : (l₁ ++ x :: l₂).filterMap f = (l₁ ++ l₂).filterMap f := by
  simp [List.filterMap_append, List.filterMap_cons, h]

/-! ## The claims -/

/-- Claim C1: each of the three aggregators returns no record exactly when
the player has zero matching plays under the current filter, and such a
player contributes no row to the Comparison Table. -/
theorem c1_zero_plays_no_record :
    (∀ pbp n t, calculate_qb_stats pbp n t = none ↔ qbPlays pbp n t = []) ∧
    (∀ pbp n t, calculate_rb_stats pbp n t = none ↔
      (rushPlays pbp n t = [] ∧ recPlays pbp n t = [])) ∧
    (∀ pbp n t, calculate_wr_te_stats pbp n t = none ↔ recPlays pbp n t = []) ∧
    (∀ pbp s1 s2 n t, qbPlays pbp n t = [] →
      buildQbTable pbp (s1 ++ (n, t) :: s2) = buildQbTable pbp (s1 ++ s2)) ∧
    (∀ pbp s1 s2 n t, rushPlays pbp n t = [] → recPlays pbp n t = [] →
      buildRbTable pbp (s1 ++ (n, t) :: s2) = buildRbTable pbp (s1 ++ s2)) ∧
    (∀ pbp s1 s2 n t, recPlays pbp n t = [] →
      buildWrTable pbp (s1 ++ (n, t) :: s2) = buildWrTable pbp (s1 ++ s2)) := by
  refine ⟨calculate_qb_stats_eq_none_iff, calculate_rb_stats_eq_none_iff,
    calculate_wr_te_stats_eq_none_iff, ?_, ?_, ?_⟩
  · intro pbp s1 s2 n t h
    exact filterMap_middle_none _ s1 s2 (n, t)
      ((calculate_qb_stats_eq_none_iff pbp n t).mpr h)
  · intro pbp s1 s2 n t h1 h2
    exact filterMap_middle_none _ s1 s2 (n, t)
      ((calculate_rb_stats_eq_none_iff pbp n t).mpr ⟨h1, h2⟩)
  · intro pbp s1 s2 n t h
    exact filterMap_middle_none _ s1 s2 (n, t)
      ((calculate_wr_te_stats_eq_none_iff pbp n t).mpr h)

/-- Claim C8: the week filter passes everything through when no week is
selected, keeps exact matches for a single selected week, and keeps the
inclusive range when a week range is selected. -/
theorem c8_week_filter :
    (∀ pbp ur we, filterWeeks pbp none ur we = pbp) ∧
    (∀ pbp w we p, p ∈ filterWeeks pbp (some w) false we ↔ (p ∈ pbp ∧ p.week = w)) ∧
    (∀ pbp w we p, p ∈ filterWeeks pbp (some w) true (some we) ↔
      (p ∈ pbp ∧ w ≤ p.week ∧ p.week ≤ we)) := by
  refine ⟨fun pbp ur we => rfl, fun pbp w we p => ?_, fun pbp w we p => ?_⟩
  · simp [filterWeeks, List.mem_filter]
  · simp [filterWeeks, List.mem_filter]

/-- Claim C9: whenever the rusher/receiver aggregator produces a record, a
sub-role with zero plays contributes zeros for every one of its metrics
(means defaulted explicitly, counts and sums of the empty set), never an
undefined value. -/
theorem c9_subrole_zero_defaults : ∀ pbp n t,
    (rushPlays pbp n t = [] → recPlays pbp n t ≠ [] →
      ∃ r, calculate_rb_stats pbp n t = some r ∧ r.rushAttempts = 0 ∧
        r.rushEpaPlay = 0 ∧ r.rushSuccessRate = 0 ∧ r.rushYards = 0 ∧ r.rushTDs = 0) ∧
    (recPlays pbp n t = [] → rushPlays pbp n t ≠ [] →
      ∃ r, calculate_rb_stats pbp n t = some r ∧ r.targets = 0 ∧
        r.recEpaTarget = 0 ∧ r.receptions = 0 ∧ r.recYards = 0 ∧ r.recTDs = 0) := by
  intro pbp n t
  constructor
  · intro h1 h2
    have hc : ¬((rushPlays pbp n t).length = 0 ∧ (recPlays pbp n t).length = 0) := by
      simp [List.length_eq_zero, h2]
    refine ⟨_, by unfold calculate_rb_stats; rw [if_neg hc], ?_, ?_, ?_, ?_, ?_⟩ <;>
      simp [h1]
  · intro h1 h2
    have hc : ¬((rushPlays pbp n t).length = 0 ∧ (recPlays pbp n t).length = 0) := by
      simp [List.length_eq_zero, h2]
    refine ⟨_, by unfold calculate_rb_stats; rw [if_neg hc], ?_, ?_, ?_, ?_, ?_⟩ <;>
      simp [h1]

/-- Claim C4: the chart shows a constant reference line exactly when the
(position, metric) pair has an entry in the Reference Line Table and the
metric is not CPOE; it is omitted for CPOE regardless of position, and for
position QB with metric EPA/Play it is included with value 0.10. -/
theorem c4_reference_line :
    (∀ position metric v, chartReferenceLine position metric = some v ↔
      (metric ≠ "CPOE" ∧ refLookup position metric = some v)) ∧
    (∀ position, chartReferenceLine position "CPOE" = none) ∧
    chartReferenceLine "QB" "EPA/Play" = some (1/10) := by
  refine ⟨fun position metric v => ?_, fun position => ?_, ?_⟩
  · unfold chartReferenceLine
    split_ifs with h <;> simp [h]
  · simp [chartReferenceLine]
  · rfl

lemma flag_sum_bounds (l : List ℚ) (h : ∀ x ∈ l, x = 0 ∨ x = 1) :
    0 ≤ l.sum ∧ l.sum ≤ (l.length : ℚ) := by
  induction l with
  | nil => simp
  | cons a as ih =>
    have ha := h a (List.mem_cons_self a as)
    have ih' := ih fun x hx => h x (List.mem_cons_of_mem a hx)
    rcases ha with h0 | h1
    · simp only [List.sum_cons, List.length_cons, h0, Nat.cast_succ]
      constructor <;> linarith [ih'.1, ih'.2]
    · simp only [List.sum_cons, List.length_cons, h1, Nat.cast_succ]
      constructor <;> linarith [ih'.1, ih'.2]

lemma rate_bounds (s len : ℚ) (hlen : 0 < len) (h0 : 0 ≤ s) (h1 : s ≤ len) :
    0 ≤ s / len * 100 ∧ s / len * 100 ≤ 100 := by
  have hq : 0 ≤ s / len := div_nonneg h0 hlen.le
  have hle : s / len ≤ 1 := (div_le_one hlen).mpr h1
  constructor
  · positivity
  · nlinarith

/-- Claim C3: the passer aggregator computes yards-after-catch per
completion as the mean over only the matched completions; with zero
completions the field holds the "no data" sentinel (pandas `NaN`, here
`none`) rather than raising. -/
theorem c3_yac_sentinel (pbp : List Play) (n t : String) (h : qbPlays pbp n t ≠ []) :
    ∃ r, calculate_qb_stats pbp n t = some r ∧
      r.yacComp = meanQ ((qbCompletions pbp n t).map (·.yards_after_catch)) ∧
      (qbCompletions pbp n t = [] → r.yacComp = none) ∧
      (qbCompletions pbp n t ≠ [] →
        r.yacComp = some (((qbCompletions pbp n t).map (·.yards_after_catch)).sum /
          ((qbCompletions pbp n t).length : ℚ))) := by
  have hlen : ¬(qbPlays pbp n t).length = 0 := by simp [List.length_eq_zero, h]
  refine ⟨_, by unfold calculate_qb_stats; rw [if_neg hlen], rfl, ?_, ?_⟩
  · intro hc
    simp [meanQ, hc]
  · intro hc
    simp [meanQ, hc]

/-- Concrete play with empty optional fields and zeroed numeric fields. -/
def basePlay : Play :=
  ⟨none, none, none, none, none, none, "T", 1, 0, 0, 0, 0, 0, 0, 0, 0, 0, 0, 0, 0⟩

/-- A completed pass by passer `"A"` of team `"T"` with 7 yards after catch. -/
def passCompletion : Play :=
  { basePlay with passer_player_name := some "A", complete_pass := 1, yards_after_catch := 7 }

/-- An incomplete pass by passer `"A"` of team `"T"`. -/
def passIncomplete : Play :=
  { basePlay with passer_player_name := some "A" }

/-- Witness for C3 at a two-play season: one completion, one incompletion. -/
theorem c3_yac_sentinel_witness :
    ∃ r, calculate_qb_stats [passCompletion, passIncomplete] "A" "T" = some r ∧
      r.yacComp = meanQ ((qbCompletions [passCompletion, passIncomplete] "A" "T").map
        (·.yards_after_catch)) ∧
      (qbCompletions [passCompletion, passIncomplete] "A" "T" = [] → r.yacComp = none) ∧
      (qbCompletions [passCompletion, passIncomplete] "A" "T" ≠ [] →
        r.yacComp = some (((qbCompletions [passCompletion, passIncomplete] "A" "T").map
          (·.yards_after_catch)).sum /
          ((qbCompletions [passCompletion, passIncomplete] "A" "T").length : ℚ))) :=
  c3_yac_sentinel [passCompletion, passIncomplete] "A" "T" (by decide)

/-- Claim C7: on a non-empty matched play set whose success and completion
flags are 0/1 valued, the passer success rate and the receiver success rate
and catch percentage all lie in [0, 100]. -/
theorem c7_rates_in_range (pbp : List Play) (n t : String)
    (hq : ∀ p ∈ qbPlays pbp n t, p.success = 0 ∨ p.success = 1)
    (hw : ∀ p ∈ recPlays pbp n t, (p.success = 0 ∨ p.success = 1) ∧
      (p.complete_pass = 0 ∨ p.complete_pass = 1)) :
    (qbPlays pbp n t ≠ [] → ∃ r, calculate_qb_stats pbp n t = some r ∧
      0 ≤ r.successRate ∧ r.successRate ≤ 100) ∧
    (recPlays pbp n t ≠ [] → ∃ r, calculate_wr_te_stats pbp n t = some r ∧
      0 ≤ r.successRate ∧ r.successRate ≤ 100 ∧ 0 ≤ r.catchPct ∧ r.catchPct ≤ 100) := by
  constructor
  · intro h
    have hlen : ¬(qbPlays pbp n t).length = 0 := by simp [List.length_eq_zero, h]
    have hpos : (0 : ℚ) < ((qbPlays pbp n t).length : ℚ) := by
      exact_mod_cast Nat.pos_of_ne_zero hlen
    have hsum := flag_sum_bounds ((qbPlays pbp n t).map (·.success)) (by
      intro x hx
      obtain ⟨p, hp, rfl⟩ := List.mem_map.mp hx
      exact hq p hp)
    rw [List.length_map] at hsum
    have := rate_bounds _ _ hpos hsum.1 hsum.2
    exact ⟨_, by unfold calculate_qb_stats; rw [if_neg hlen], this.1, this.2⟩
  · intro h
    have hlen : ¬(recPlays pbp n t).length = 0 := by simp [List.length_eq_zero, h]
    have hpos : (0 : ℚ) < ((recPlays pbp n t).length : ℚ) := by
      exact_mod_cast Nat.pos_of_ne_zero hlen
    have hsum := flag_sum_bounds ((recPlays pbp n t).map (·.success)) (by
      intro x hx
      obtain ⟨p, hp, rfl⟩ := List.mem_map.mp hx
      exact (hw p hp).1)
    rw [List.length_map] at hsum
    have hcomp := flag_sum_bounds ((recPlays pbp n t).map (·.complete_pass)) (by
      intro x hx
      obtain ⟨p, hp, rfl⟩ := List.mem_map.mp hx
      exact (hw p hp).2)
    rw [List.length_map] at hcomp
    have hs := rate_bounds _ _ hpos hsum.1 hsum.2
    have hc := rate_bounds _ _ hpos hcomp.1 hcomp.2
    exact ⟨_, by unfold calculate_wr_te_stats; rw [if_neg hlen], hs.1, hs.2, hc.1, hc.2⟩

/-- A successful completed target of receiver `"A"` of team `"T"`. -/
def flagPlay : Play :=
  { basePlay with
    passer_player_name := some "A"
    receiver_player_name := some "A"
    success := 1
    complete_pass := 1 }

/-- Witness for C7 at a one-play season matched both as passer and receiver. -/
theorem c7_rates_in_range_witness :
    ∃ r, calculate_qb_stats [flagPlay] "A" "T" = some r ∧
      0 ≤ r.successRate ∧ r.successRate ≤ 100 :=
  (c7_rates_in_range [flagPlay] "A" "T" (by decide) (by decide)).1 (by decide)

/-- Claim C6: the identity resolver is total: when an identifier is found
and a roster row with non-missing names matches it, the result is the
"LastName, PreferredFirstName (TEAM)" format (football name preferred when
present and non-blank); in every other case it is the fallback
"AbbreviatedName (TEAM)" — never a missing value. -/
theorem c6_resolver_total :
    (∀ nm tm pbp rosters position pid row ln fn,
      findId position pbp nm tm = some pid →
      List.find? (fun r => decide (r.player_id = some pid)) rosters = some row →
      row.last_name = some ln → preferredFirst row = some fn →
      get_player_display_name nm tm pbp rosters position = formatFull ln fn tm) ∧
    (∀ nm tm pbp rosters position,
      get_player_display_name nm tm pbp rosters position = fallbackName nm tm ∨
      ∃ ln fn, get_player_display_name nm tm pbp rosters position = formatFull ln fn tm) := by
  constructor
  · intro nm tm pbp rosters position pid row ln fn h1 h2 h3 h4
    simp only [get_player_display_name, h1, h2, h3, h4]
  · intro nm tm pbp rosters position
    unfold get_player_display_name
    split
    · exact Or.inl rfl
    · split
      · exact Or.inl rfl
      · split
        · exact Or.inr ⟨_, _, rfl⟩
        · exact Or.inl rfl

/-- Claim C2: the chart sort is an ascending stable sort on the selected
metric: the output is sorted and a permutation of the input, any two rows
with equal metric values keep their input order, and on metric values
[0.10, 0.10, 0.05] for players [A, B, C] the output order is [C, A, B]. -/
theorem c2_chart_sort_stable :
    (∀ rows : List ChartRow, List.Sorted byMetric (sortByMetric rows)) ∧
    (∀ rows : List ChartRow, (sortByMetric rows).Perm rows) ∧
    (∀ (rows : List ChartRow) (a b : ChartRow), a.value = b.value →
      [a, b].Sublist rows → [a, b].Sublist (sortByMetric rows)) ∧
    sortByMetric [⟨"A", 1/10⟩, ⟨"B", 1/10⟩, ⟨"C", 1/20⟩] =
      [⟨"C", 1/20⟩, ⟨"A", 1/10⟩, ⟨"B", 1/10⟩] := by
  refine ⟨fun rows => List.sorted_insertionSort byMetric rows,
    fun rows => List.perm_insertionSort byMetric rows,
    fun rows a b hv hs => List.pair_sublist_insertionSort (le_of_eq hv) hs, ?_⟩
  norm_num [sortByMetric, List.insertionSort, List.orderedInsert, byMetric]

lemma roundHalfEven_nearest (q : ℚ) : |q - (roundHalfEven q : ℚ)| ≤ 1/2 := by
  have h1 : (⌊q⌋ : ℚ) ≤ q := Int.floor_le q
  have h2 : q < ⌊q⌋ + 1 := Int.lt_floor_add_one q
  unfold roundHalfEven
  split_ifs with ha hb hc
  · rw [abs_le]
    constructor <;> linarith
  · rw [abs_le]
    push_cast
    constructor <;> linarith
  · rw [abs_le]
    constructor <;> linarith [le_of_not_lt ha, le_of_not_lt hb]
  · rw [abs_le]
    push_cast
    constructor <;> linarith [le_of_not_lt ha, le_of_not_lt hb]

lemma round2_nearest (q : ℚ) : |q - round2 q| ≤ 1/200 := by
  have h := roundHalfEven_nearest (q * 100)
  unfold round2
  rw [abs_le] at h ⊢
  constructor <;> linarith [h.1, h.2]

lemma displayRound_eq (col : String) (v : ℚ) :
    displayRound col v = if twoDecCol col then round2 v else (roundHalfEven v : ℚ) := by
  unfold displayRound twoDecCol
  cases h1 : (containsSub "%" col || containsSub "Rate" col) <;>
    cases h2 : (containsSub "EPA" col || containsSub "CPOE" col ||
      containsSub "Yards" col || containsSub "YAC" col) <;>
    simp [h1, h2]

/-- Claim C5: the display rounding policy sends percentage/rate and
EPA/CPOE/yardage/yards-after-catch columns to two decimal places and every
other numeric column to the nearest integer; rounding is within the half
unit in either mode; EPA/Play 0.12345 displays as 0.12 and Rush Attempts
14.0 as the integer 14. -/
theorem c5_rounding_policy :
    (∀ col ∈ qbCols ++ rbCols ++ wrCols, twoDecCol col = true ↔ col ∈ specTwoDecCols) ∧
    (∀ col v, displayRound col v =
      if twoDecCol col then round2 v else (roundHalfEven v : ℚ)) ∧
    (∀ v : ℚ, |v - (roundHalfEven v : ℚ)| ≤ 1/2) ∧
    (∀ v : ℚ, |v - round2 v| ≤ 1/200) ∧
    displayRound "EPA/Play" (12345/100000) = 12/100 ∧
    displayRound "Rush Attempts" 14 = 14 := by
  refine ⟨by decide, displayRound_eq, roundHalfEven_nearest, round2_nearest, ?_, ?_⟩
  · have ht : twoDecCol "EPA/Play" = true := by decide
    rw [displayRound_eq, ht, if_pos rfl]
    have hv : ((12345 : ℚ)/100000 * 100) = 2469/200 := by norm_num
    have hf : ⌊(2469/200 : ℚ)⌋ = 12 := by
      rw [Int.floor_eq_iff]
      norm_num
    have hr : roundHalfEven ((12345 : ℚ)/100000 * 100) = 12 := by
      rw [roundHalfEven, hv, hf]
      norm_num
    rw [round2, hr]
    norm_num
  · have ht : twoDecCol "Rush Attempts" = false := by decide
    rw [displayRound_eq, ht]
    have hf : ⌊(14 : ℚ)⌋ = 14 := by
      rw [Int.floor_eq_iff]
      norm_num
    have hr : roundHalfEven (14 : ℚ) = 14 := by
      rw [roundHalfEven, hf]
      norm_num
    rw [if_neg (by simp), hr]
    norm_num

lemma splitPipe_length (l : List Char) : (splitPipe l).length = l.count '|' + 1 := by
  induction l with
  | nil => rfl
  | cons c cs ih =>
    by_cases h : c = '|'
    · subst h
      simp [splitPipe, List.count_cons, ih]
    · simp only [splitPipe, if_neg h]
      cases hs : splitPipe cs with
      | nil => rw [hs] at ih; simp at ih
      | cons p ps =>
        rw [hs] at ih
        simp only [List.length_cons] at ih ⊢
        simp [List.count_cons, h]
        omega

lemma splitPipe_no_pipe (l : List Char) (h : '|' ∉ l) : splitPipe l = [l] := by
  induction l with
  | nil => rfl
  | cons c cs ih =>
    have hc : ¬c = '|' := by rintro rfl; exact h (List.mem_cons_self _ _)
    have hcs : '|' ∉ cs := fun m => h (List.mem_cons_of_mem c m)
    simp only [splitPipe, if_neg hc, ih hcs]

lemma splitPipe_append (a b : List Char) (h : '|' ∉ a) :
    splitPipe (a ++ '|' :: b) = a :: splitPipe b := by
  induction a with
  | nil => simp [splitPipe]
  | cons c a2 ih =>
    have hc : ¬c = '|' := by rintro rfl; exact h (List.mem_cons_self _ _)
    have ha2 : '|' ∉ a2 := fun m => h (List.mem_cons_of_mem c m)
    simp only [List.cons_append, splitPipe, if_neg hc, List.append_eq, ih ha2]

lemma string_mk_data (s : String) : String.mk s.data = s := by
  cases s
  rfl

/-- Claim C10: the selection key "name|team" decodes back to exactly the
original pair precisely when neither component contains the '|' delimiter,
and an abbreviated name containing '|' makes the two-element decode fail. -/
theorem c10_key_roundtrip : ∀ name team : String,
    (decodeKey (encodeKey name team) = some (name, team) ↔
      ('|' ∉ name.data ∧ '|' ∉ team.data)) ∧
    ('|' ∈ name.data → decodeKey (encodeKey name team) = none) := by
  intro name team
  have hdata : (encodeKey name team).data = name.data ++ '|' :: team.data := by
    simp [encodeKey, String.data_append]
  have h2 : '|' ∈ name.data → decodeKey (encodeKey name team) = none := by
    intro hm
    have h1 : 0 < name.data.count '|' := List.count_pos_iff.mpr hm
    have hcount : 2 ≤ (name.data ++ '|' :: team.data).count '|' := by
      simp [List.count_append, List.count_cons]
      omega
    have hlen : 3 ≤ (splitPipe (name.data ++ '|' :: team.data)).length := by
      rw [splitPipe_length]
      omega
    unfold decodeKey
    rw [hdata]
    rcases hsp : splitPipe (name.data ++ '|' :: team.data) with _ | ⟨x, _ | ⟨y, _ | ⟨z, rest⟩⟩⟩
    · rfl
    · rfl
    · exfalso
      rw [hsp] at hlen
      simp at hlen
    · rfl
  refine ⟨⟨?_, ?_⟩, h2⟩
  · intro hdec
    by_cases hm : '|' ∈ name.data
    · rw [h2 hm] at hdec
      simp at hdec
    · refine ⟨hm, ?_⟩
      intro ht
      have happ := splitPipe_append name.data team.data hm
      have htc : 0 < team.data.count '|' := List.count_pos_iff.mpr ht
      have hlen : 2 ≤ (splitPipe team.data).length := by
        rw [splitPipe_length]
        omega
      unfold decodeKey at hdec
      rw [hdata, happ] at hdec
      rcases hsp : splitPipe team.data with _ | ⟨x, _ | ⟨y, rest⟩⟩
      · rw [hsp] at hlen
        simp at hlen
      · rw [hsp] at hlen
        simp at hlen
      · rw [hsp] at hdec
        simp at hdec
  · rintro ⟨hn, ht⟩
    unfold decodeKey
    rw [hdata, splitPipe_append _ _ hn, splitPipe_no_pipe _ ht]
